import Mathlib

/-!
Verification of the ExcelMetaExtractor region-detection core.

This file gives a shallow embedding, in Lean 4, of the region-detection
pipeline of `excel_metadata_extractor.py` (class `ExcelMetadataExtractor`):
the boundary scanner `find_region_boundaries`, the merged-range resolver
`get_merged_cells_info`, the cell sampler `extract_region_cells`, the header
analysis `detect_header_structure`, the per-sheet orchestrator
`detect_regions`, and the top level `get_sheet_metadata` /
`extract_all_metadata`.

Modelling conventions:
* Python `sheet.cell(row, col).value` is a total lookup returning an optional
  value; we model the worksheet as a function `Nat → Nat → Option CellValue`
  together with the sheet extents `max_row` / `max_column`.
* openpyxl returns a `MergedCell` instance for every cell of a merged range
  except the top-left anchor.  Whether a coordinate is such an instance is
  recorded by the field `mergedFlag` of the sheet, independent of the
  `merges` list, so that the source's fallback branch (a cell flagged as
  merged whose owning range is not found) is representable.
* A1-style coordinate strings are injective renderings of the underlying
  numbers (`f"{get_column_letter(c)}{r}"`, `f"...{r}:{...}{r}"`,
  `str(merged_range)`); the embedding models them by the structured values
  themselves: a coordinate by the pair `(row, col)`, a range string by a
  `CellRange`, a merged range string by the `MergedRange` record.
* Calls into `openai_helper` (the classification oracle) are opaque,
  latency-bearing and fallible; they are modelled by an explicit `Oracle`
  record of functions returning `Except String _`, an `.error` standing for
  a raised exception.  A Python `try/except ...: raise` block is the
  identity on this representation (it re-raises the same exception).
* Reading the drawing XML from the zip container is the out-of-scope
  package reader; the list of drawing objects it yields for a sheet is the
  `drawings` field of the sheet, each with its resolved cell coordinates.
-/

namespace ExcelMeta

/-- A spreadsheet cell value as seen through openpyxl: numbers
(`int`/`float`), datetimes, or any other (string) payload.  `None` is
represented by `Option.none` at use sites. -/
inductive CellValue where
  | num (n : Int)
  | date (d : String)
  | text (s : String)
deriving DecidableEq

/-- Python `str(value)` on a cell value (dates already carried as their
rendered form). -/
def pyStr : CellValue → String
  | .num n => toString n
  | .date d => d
  | .text s => s

/-- A merged cell range, `merged_range` of openpyxl: bounds
`min_row/min_col/max_row/max_col`, 1-based inclusive. -/
structure MergedRange where
  minRow : Nat
  minCol : Nat
  maxRow : Nat
  maxCol : Nat
deriving DecidableEq

/-- An inclusive rectangle of cells, the structured form of an A1 range
string `"{colLetter}{row}:{colLetter}{row}"`. -/
structure CellRange where
  fromRow : Nat
  fromCol : Nat
  toRow : Nat
  toCol : Nat
deriving DecidableEq

/-- A drawing object, as produced by `extract_drawing_info` for one anchor
(the XML parsing itself is the out-of-scope package reader): its type tag,
its resolved cell coordinates (`drawing["coordinates"]`, also rendered as
`drawing["range"]`), and the claim-irrelevant text payload fields. -/
structure Drawing where
  dtype : String
  coords : CellRange
  dname : String := ""
  descr : String := ""
  textContent : String := ""
  chartTypeF : String := ""
deriving DecidableEq

/-- The worksheet as the embedding sees it: extents, cell lookup, merged
ranges, the `MergedCell`-instance flag (see the file comment), the drawing
objects of the sheet's drawing part, and the sheet-level attributes used by
`get_sheet_metadata`. -/
structure Sheet where
  title : String := ""
  maxRow : Nat
  maxCol : Nat
  cellVal : Nat → Nat → Option CellValue
  mergedFlag : Nat → Nat → Bool := fun _ _ => false
  merges : List MergedRange := []
  drawings : List Drawing := []
  protectionSheet : Bool := false
  hasPivots : Bool := false
  hasCharts : Bool := false

/-! ## Boundary scanner (`find_region_boundaries`) -/

/-- One row-emptiness test of the downward scan: the inner
`for col in range(start_col, min(start_col + 20, sheet.max_column + 1))`
loop, which leaves `row_empty` true iff every sampled cell is `None`. -/
def rowEmptyAt (s : Sheet) (startCol row : Nat) : Bool :=
  (List.range' startCol (min (startCol + 20) (s.maxCol + 1) - startCol)).all
    (fun col => (s.cellVal row col).isNone)

/-- One column-emptiness test of the rightward scan: the inner
`for row in range(start_row, min(max_row + 1, start_row + 50))` loop. -/
def colEmptyAt (s : Sheet) (startRow maxRow col : Nat) : Bool :=
  (List.range' startRow (min (maxRow + 1) (startRow + 50) - startRow)).all
    (fun row => (s.cellVal row col).isNone)

/-- The downward scan of `find_region_boundaries`: walk the candidate rows,
keeping `empty_row_count` and the last non-empty row `max_row`; stop as soon
as the streak reaches `min_empty_rows = 1`. -/
def scanRowsLoop (s : Sheet) (startCol : Nat) :
    List Nat → Nat → Nat → Nat
  | [], _, maxRow => maxRow
  | row :: rest, emptyCount, maxRow =>
    if rowEmptyAt s startCol row then
      if emptyCount + 1 ≥ 1 then maxRow
      else scanRowsLoop s startCol rest (emptyCount + 1) maxRow
    else scanRowsLoop s startCol rest 0 row

/-- The rightward scan of `find_region_boundaries`, judged against the
already-resolved row extent `maxRow0` (`min_empty_cols = 1`). -/
def scanColsLoop (s : Sheet) (startRow maxRow0 : Nat) :
    List Nat → Nat → Nat → Nat
  | [], _, maxCol => maxCol
  | col :: rest, emptyCount, maxCol =>
    if colEmptyAt s startRow maxRow0 col then
      if emptyCount + 1 ≥ 1 then maxCol
      else scanColsLoop s startRow maxRow0 rest (emptyCount + 1) maxCol
    else scanColsLoop s startRow maxRow0 rest 0 col

/-- `ExcelMetadataExtractor.find_region_boundaries` (identical to
`RegionDetector.find_region_boundaries` in `region_detector.py`): scan rows
downward over `range(start_row, min(sheet.max_row + 1, start_row + 1000))`,
then columns rightward over
`range(start_col, min(sheet.max_column + 1, start_col + 50))`, and clamp the
result to at least the seed. -/
def find_region_boundaries (s : Sheet) (startRow startCol : Nat) : Nat × Nat :=
  let maxRow0 := scanRowsLoop s startCol
    (List.range' startRow (min (s.maxRow + 1) (startRow + 1000) - startRow)) 0 startRow
  let maxCol0 := scanColsLoop s startRow maxRow0
    (List.range' startCol (min (s.maxCol + 1) (startCol + 50) - startCol)) 0 startCol
  (max maxRow0 startRow, max maxCol0 startCol)

lemma scanRowsLoop_cons (s : Sheet) (startCol row : Nat) (rest : List Nat)
    (cnt m0 : Nat) :
    scanRowsLoop s startCol (row :: rest) cnt m0 =
      if rowEmptyAt s startCol row then m0 else scanRowsLoop s startCol rest 0 row := by
  by_cases h : rowEmptyAt s startCol row
  · rw [scanRowsLoop, if_pos h, if_pos h, if_pos (show cnt + 1 ≥ 1 by omega)]
  · rw [scanRowsLoop, if_neg h, if_neg h]

lemma scanColsLoop_cons (s : Sheet) (startRow maxRow0 col : Nat) (rest : List Nat)
    (cnt m0 : Nat) :
    scanColsLoop s startRow maxRow0 (col :: rest) cnt m0 =
      if colEmptyAt s startRow maxRow0 col then m0
      else scanColsLoop s startRow maxRow0 rest 0 col := by
  by_cases h : colEmptyAt s startRow maxRow0 col
  · rw [scanColsLoop, if_pos h, if_pos h, if_pos (show cnt + 1 ≥ 1 by omega)]
  · rw [scanColsLoop, if_neg h, if_neg h]

lemma scanRowsLoop_eq_or_mem (s : Sheet) (startCol : Nat) :
    ∀ (l : List Nat) (cnt m0 : Nat),
      scanRowsLoop s startCol l cnt m0 = m0 ∨ scanRowsLoop s startCol l cnt m0 ∈ l := by
  intro l
  induction l with
  | nil => intro cnt m0; exact Or.inl rfl
  | cons row rest ih =>
    intro cnt m0
    rw [scanRowsLoop_cons]
    by_cases hre : rowEmptyAt s startCol row
    · rw [if_pos hre]; exact Or.inl rfl
    · rw [if_neg hre]
      rcases ih 0 row with h | h
      · rw [h]; exact Or.inr (List.mem_cons_self _ _)
      · exact Or.inr (List.mem_cons_of_mem _ h)

lemma scanColsLoop_eq_or_mem (s : Sheet) (startRow maxRow0 : Nat) :
    ∀ (l : List Nat) (cnt m0 : Nat),
      scanColsLoop s startRow maxRow0 l cnt m0 = m0 ∨
        scanColsLoop s startRow maxRow0 l cnt m0 ∈ l := by
  intro l
  induction l with
  | nil => intro cnt m0; exact Or.inl rfl
  | cons col rest ih =>
    intro cnt m0
    rw [scanColsLoop_cons]
    by_cases hce : colEmptyAt s startRow maxRow0 col
    · rw [if_pos hce]; exact Or.inl rfl
    · rw [if_neg hce]
      rcases ih 0 col with h | h
      · rw [h]; exact Or.inr (List.mem_cons_self _ _)
      · exact Or.inr (List.mem_cons_of_mem _ h)

/-- C3: with the seed inside the sheet, `find_region_boundaries` is a pure
function (each call returns the same pair) and its result is bounded by the
seed below and by the sheet extents and the hard scan caps
(1000 rows, 50 columns) above. -/
theorem c3_boundary_scanner (s : Sheet) (startRow startCol : Nat)
    (hr : startRow ≤ s.maxRow) (hc : startCol ≤ s.maxCol) :
    find_region_boundaries s startRow startCol = find_region_boundaries s startRow startCol ∧
    startRow ≤ (find_region_boundaries s startRow startCol).1 ∧
    (find_region_boundaries s startRow startCol).1 ≤ min s.maxRow (startRow + 999) ∧
    startCol ≤ (find_region_boundaries s startRow startCol).2 ∧
    (find_region_boundaries s startRow startCol).2 ≤ min s.maxCol (startCol + 49) := by
  refine ⟨rfl, ?_, ?_, ?_, ?_⟩
  · exact le_max_right _ _
  · have h := scanRowsLoop_eq_or_mem s startCol
      (List.range' startRow (min (s.maxRow + 1) (startRow + 1000) - startRow)) 0 startRow
    simp only [find_region_boundaries]
    rcases h with h | h
    · rw [h]
      simp only [max_self]
      exact le_min hr (by omega)
    · rw [List.mem_range'_1] at h
      have hb : scanRowsLoop s startCol
          (List.range' startRow (min (s.maxRow + 1) (startRow + 1000) - startRow)) 0 startRow
          ≤ min s.maxRow (startRow + 999) := by omega
      exact max_le hb (le_min hr (by omega))
  · exact le_max_right _ _
  · have h := scanColsLoop_eq_or_mem s startRow
      (scanRowsLoop s startCol
        (List.range' startRow (min (s.maxRow + 1) (startRow + 1000) - startRow)) 0 startRow)
      (List.range' startCol (min (s.maxCol + 1) (startCol + 50) - startCol)) 0 startCol
    simp only [find_region_boundaries]
    rcases h with h | h
    · rw [h]
      simp only [max_self]
      exact le_min hc (by omega)
    · rw [List.mem_range'_1] at h
      refine max_le (by omega) (le_min hc (by omega))

/-- A concrete 2×2 sheet used by several witnesses: cells (1,2), (2,1),
(2,2) hold text, (1,1) is empty. -/
def sheetOv : Sheet where
  maxRow := 2
  maxCol := 2
  cellVal := fun r c =>
    if (r = 1 ∧ c = 2) ∨ (r = 2 ∧ c = 1) ∨ (r = 2 ∧ c = 2) then some (.text "x") else none

/-- Witness for C3 at the concrete sheet `sheetOv`, seed (1,2). -/
theorem c3_boundary_scanner_witness :
    (1 ≤ sheetOv.maxRow ∧ 2 ≤ sheetOv.maxCol) ∧
    (find_region_boundaries sheetOv 1 2 = find_region_boundaries sheetOv 1 2 ∧
      1 ≤ (find_region_boundaries sheetOv 1 2).1 ∧
      (find_region_boundaries sheetOv 1 2).1 ≤ min sheetOv.maxRow (1 + 999) ∧
      2 ≤ (find_region_boundaries sheetOv 1 2).2 ∧
      (find_region_boundaries sheetOv 1 2).2 ≤ min sheetOv.maxCol (2 + 49)) :=
  ⟨by decide, c3_boundary_scanner sheetOv 1 2 (by decide) (by decide)⟩

/-! ## Merged-range resolver (`get_merged_cells_info`) -/

/-- `ExcelMetadataExtractor.get_merged_cells_info` (same code in
`region_detector.py` and `region_analyzer.py`): collect, from
`sheet.merged_cells.ranges`, the merges fully contained in the queried
rectangle, each as the pair of `str(merged_range)` (modelled by the range
record) and the anchor cell's value. -/
def get_merged_cells_info (s : Sheet) (startRow startCol maxRow maxCol : Nat) :
    List (MergedRange × Option CellValue) :=
  (s.merges.filter (fun m =>
      startRow ≤ m.minRow && m.maxRow ≤ maxRow && startCol ≤ m.minCol && m.maxCol ≤ maxCol)).map
    (fun m => (m, s.cellVal m.minRow m.minCol))

/-- C8: `get_merged_cells_info` returns exactly the merges of the sheet that
are fully contained in the queried rectangle: every returned entry is a
sheet merge whose four bounds lie inside the rectangle, and every sheet
merge with all four bounds inside is returned (paired with its anchor's
value); partially overlapping merges are excluded. -/
theorem c8_merge_containment (s : Sheet) (startRow startCol maxRow maxCol : Nat) :
    (∀ e ∈ get_merged_cells_info s startRow startCol maxRow maxCol,
        e.1 ∈ s.merges ∧ startRow ≤ e.1.minRow ∧ e.1.maxRow ≤ maxRow ∧
          startCol ≤ e.1.minCol ∧ e.1.maxCol ≤ maxCol ∧
          e.2 = s.cellVal e.1.minRow e.1.minCol) ∧
    (∀ m ∈ s.merges, startRow ≤ m.minRow → m.maxRow ≤ maxRow →
        startCol ≤ m.minCol → m.maxCol ≤ maxCol →
        (m, s.cellVal m.minRow m.minCol) ∈
          get_merged_cells_info s startRow startCol maxRow maxCol) := by
  constructor
  · intro e he
    simp only [get_merged_cells_info, List.mem_map] at he
    obtain ⟨m, hm, rfl⟩ := he
    have hmem := List.mem_filter.mp hm
    have hb := hmem.2
    simp only [Bool.and_eq_true, decide_eq_true_eq] at hb
    exact ⟨hmem.1, hb.1.1.1, hb.1.1.2, hb.1.2, hb.2, rfl⟩
  · intro m hm h1 h2 h3 h4
    simp only [get_merged_cells_info, List.mem_map]
    refine ⟨m, List.mem_filter.mpr ⟨hm, ?_⟩, rfl⟩
    simp only [Bool.and_eq_true, decide_eq_true_eq]
    exact ⟨⟨⟨h1, h2⟩, h3⟩, h4⟩

/-- A concrete sheet with one merged range A1:B1 whose anchor (1,1) holds
"Q1"; position (1,2) is a `MergedCell` instance. -/
def sheetM : Sheet where
  maxRow := 2
  maxCol := 2
  cellVal := fun r c => if r = 1 ∧ c = 1 then some (.text "Q1") else none
  mergedFlag := fun r c => r = 1 ∧ c = 2
  merges := [⟨1, 1, 1, 2⟩]

/-- Witness for C8 on `sheetM`: the merge A1:B1 is fully contained in the
rectangle (1,1)-(2,2) and is returned with its anchor value. -/
theorem c8_merge_containment_witness :
    ((⟨1, 1, 1, 2⟩ : MergedRange) ∈ sheetM.merges ∧ 1 ≤ (1 : Nat) ∧ (1 : Nat) ≤ 2 ∧
      1 ≤ (1 : Nat) ∧ (2 : Nat) ≤ 2) ∧
    ((⟨1, 1, 1, 2⟩ : MergedRange), sheetM.cellVal 1 1) ∈
      get_merged_cells_info sheetM 1 1 2 2 :=
  ⟨by decide,
    (c8_merge_containment sheetM 1 1 2 2).2 ⟨1, 1, 1, 2⟩ (by decide) (by decide)
      (by decide) (by decide) (by decide)⟩

/-! ## Cell sampler (`extract_region_cells` of `excel_metadata_extractor.py`) -/

/-- One sampled cell descriptor, the dictionary built per cell by
`extract_region_cells`.  `isMerged`/`mergedRange` are `none` when the source
dictionary omits the key (the regular-cell branch, and `mergedRange` in the
no-owning-range fallback). -/
structure CellInfo where
  row : Nat
  col : Nat
  value : String
  ctype : String
  isMerged : Option Bool := none
  mergedRange : Option MergedRange := none
deriving DecidableEq

/-- A default descriptor used only as the `getD` fallback in statements. -/
def dummyCell : CellInfo := { row := 0, col := 0, value := "", ctype := "" }

/-- `analyze_cell_type`: `None → "empty"`, `int/float → "numeric"`,
`datetime → "date"`, anything else → `"text"`. -/
def analyze_cell_type (v : Option CellValue) : String :=
  match v with
  | none => "empty"
  | some (.num _) => "numeric"
  | some (.date _) => "date"
  | some (.text _) => "text"

/-- The owning-merge test of the sampler's inner
`for merged_range in sheet.merged_cells.ranges` loop. -/
def owningPred (r c : Nat) (m : MergedRange) : Bool :=
  m.minRow ≤ r && r ≤ m.maxRow && m.minCol ≤ c && c ≤ m.maxCol

/-- The descriptor built for one cell of the sampled rectangle: the
`MergedCell` branch searches for the owning merge (first match wins, the
`for/else` falling back to an empty-valued merged descriptor), the regular
branch stringifies the cell's own value. -/
def cellInfoAt (s : Sheet) (r c : Nat) : CellInfo :=
  if s.mergedFlag r c then
    match s.merges.find? (owningPred r c) with
    | some m =>
      { row := r, col := c,
        value := match s.cellVal m.minRow m.minCol with
                 | some v => pyStr v
                 | none => "",
        ctype := analyze_cell_type (s.cellVal r c),
        isMerged := some true, mergedRange := some m }
    | none =>
      { row := r, col := c, value := "",
        ctype := analyze_cell_type (s.cellVal r c), isMerged := some true }
  else
    { row := r, col := c,
      value := match s.cellVal r c with
               | some v => pyStr v
               | none => "",
      ctype := analyze_cell_type (s.cellVal r c) }

/-- `ExcelMetadataExtractor.extract_region_cells`: sample the rectangle
row-major, with `actual_max_row = min(max_row, start_row + 5)` (the first
five rows past the seed) and `actual_max_col = max_col` — the commented-out
`MAX_CELLS_PER_ANALYSIS` budget is not in effect. -/
def extract_region_cells (s : Sheet) (startRow startCol maxRow maxCol : Nat) :
    List (List CellInfo) :=
  let actualMaxRow := min maxRow (startRow + 5)
  let actualMaxCol := maxCol
  (List.range' startRow (actualMaxRow + 1 - startRow)).map (fun r =>
    (List.range' startCol (actualMaxCol + 1 - startCol)).map (fun c => cellInfoAt s r c))

lemma getD_map_range' {α : Type} (f : Nat → α) (a : Nat) :
    ∀ (n i : Nat), i < n → ∀ (d : α), ((List.range' a n).map f).getD i d = f (a + i) := by
  intro n
  induction n generalizing a with
  | zero => intro i hi; omega
  | succ k ih =>
    intro i hi d
    rw [List.range'_succ]
    cases i with
    | zero => simp
    | succ j =>
      have := ih (a + 1) j (by omega) d
      simpa [Nat.add_assoc, Nat.add_comm 1 j] using this

/-- The descriptor that `extract_region_cells` places at row `r`, column `c`
of the sampled rectangle is exactly `cellInfoAt s r c`. -/
lemma extract_region_cells_getD (s : Sheet) (startRow startCol maxRow maxCol r c : Nat)
    (h1 : startRow ≤ r) (h2 : r ≤ min maxRow (startRow + 5))
    (h3 : startCol ≤ c) (h4 : c ≤ maxCol) :
    ((extract_region_cells s startRow startCol maxRow maxCol).getD (r - startRow) []).getD
        (c - startCol) dummyCell = cellInfoAt s r c := by
  unfold extract_region_cells
  rw [getD_map_range' _ startRow _ (r - startRow) (by omega) []]
  rw [getD_map_range' _ startCol _ (c - startCol) (by omega) dummyCell]
  congr 1 <;> omega

/-- A sheet whose grid is entirely empty, used by counterexamples. -/
def sheetTriv : Sheet where
  maxRow := 1
  maxCol := 1
  cellVal := fun _ _ => none

/-- C7 counterexample: the requested rectangle (1,1)-(1,200) has 200 cells,
more than `maxCells = 100`, yet the sampler performs no truncation at all —
the returned array has exactly the requested dimensions 1 × 200 (no
budget-driven sub-rectangle is recomputed, and columns are never cut). -/
theorem c7_counterexample :
    1 * 200 > 100 ∧
    (extract_region_cells sheetTriv 1 1 1 200).length = 1 ∧
    (extract_region_cells sheetTriv 1 1 1 200).map List.length = [200] := by
  refine ⟨by norm_num, ?_, ?_⟩
  · simp [extract_region_cells]
  · simp [extract_region_cells]

/-- C7 as amended: the sampler ignores any cell-count budget.  It truncates
rows only — to `actual_max_row = min(max_row, start_row + 5)` — and never
truncates columns; the returned array's outer length and every inner row
length equal exactly the dimensions of that actual sub-rectangle, and when
row truncation happens the outer length differs from the requested row
count. -/
theorem c7_truncated_dimensions (s : Sheet) (startRow startCol maxRow maxCol : Nat)
    (h1 : startRow ≤ maxRow) (h2 : startCol ≤ maxCol) :
    (extract_region_cells s startRow startCol maxRow maxCol).length =
      min maxRow (startRow + 5) + 1 - startRow ∧
    (∀ rowData ∈ extract_region_cells s startRow startCol maxRow maxCol,
        rowData.length = maxCol + 1 - startCol) ∧
    (startRow + 5 < maxRow →
      (extract_region_cells s startRow startCol maxRow maxCol).length ≠
        maxRow + 1 - startRow) := by
  refine ⟨?_, ?_, ?_⟩
  · simp [extract_region_cells]
  · intro rowData hmem
    simp only [extract_region_cells, List.mem_map] at hmem
    obtain ⟨r, _, rfl⟩ := hmem
    simp
  · intro hlt
    simp only [extract_region_cells, List.length_map, List.length_range']
    omega

/-- Witness for C7 (amended) at the rectangle (1,1)-(10,2) of the empty
sheet: rows are truncated to 1..6, columns kept. -/
theorem c7_truncated_dimensions_witness :
    ((1 : Nat) ≤ 10 ∧ (1 : Nat) ≤ 2) ∧
    ((extract_region_cells sheetTriv 1 1 10 2).length = min 10 (1 + 5) + 1 - 1 ∧
      (∀ rowData ∈ extract_region_cells sheetTriv 1 1 10 2,
          rowData.length = 2 + 1 - 1) ∧
      (1 + 5 < 10 →
        (extract_region_cells sheetTriv 1 1 10 2).length ≠ 10 + 1 - 1)) :=
  ⟨by decide, c7_truncated_dimensions sheetTriv 1 1 10 2 (by decide) (by decide)⟩

/-- A sheet with one merged range A1:B1 whose anchor (1,1) is empty:
position (1,2) is a `MergedCell` instance, the anchor (1,1) is not. -/
def sheetM0 : Sheet where
  maxRow := 1
  maxCol := 2
  cellVal := fun _ _ => none
  mergedFlag := fun r c => r = 1 ∧ c = 2
  merges := [⟨1, 1, 1, 2⟩]

/-- C6 counterexample, on `sheetM0` sampled over (1,1)-(1,2).  The anchor
position (1,1) lies inside the merged range A1:B1, yet its descriptor
carries no `isMerged` flag at all (openpyxl's anchor is a regular cell, so
the `MergedCell` branch is never taken); and the non-anchor position (1,2)
is reported with `isMerged=true` but an empty value, because the merge's
anchor cell is itself empty — the claim's "never an empty value" fails. -/
theorem c6_counterexample :
    owningPred 1 1 ⟨1, 1, 1, 2⟩ = true ∧ (⟨1, 1, 1, 2⟩ : MergedRange) ∈ sheetM0.merges ∧
    (((extract_region_cells sheetM0 1 1 1 2).getD 0 []).getD 0 dummyCell).isMerged = none ∧
    (((extract_region_cells sheetM0 1 1 1 2).getD 0 []).getD 1 dummyCell).isMerged =
      some true ∧
    (((extract_region_cells sheetM0 1 1 1 2).getD 0 []).getD 1 dummyCell).value = "" := by
  refine ⟨by decide, by decide, ?_, ?_, ?_⟩ <;> decide

/-- C6 as amended: a sampled position the sheet flags as a `MergedCell`
instance (inside a merge, other than the anchor, for a well-formed package)
whose owning merge is found reports `isMerged=true`, that merge's range, and
the stringification of the merge's anchor value — which is the empty string
exactly when the anchor cell is empty, not "never empty"; a flagged position
whose owning merge is not found yields an empty-valued `isMerged=true`
descriptor without failing. -/
theorem c6_merged_cell_descriptor (s : Sheet) (startRow startCol maxRow maxCol r c : Nat)
    (h1 : startRow ≤ r) (h2 : r ≤ min maxRow (startRow + 5))
    (h3 : startCol ≤ c) (h4 : c ≤ maxCol)
    (hflag : s.mergedFlag r c = true) :
    (∀ m, s.merges.find? (owningPred r c) = some m →
      ((extract_region_cells s startRow startCol maxRow maxCol).getD (r - startRow) []).getD
          (c - startCol) dummyCell =
        { row := r, col := c,
          value := match s.cellVal m.minRow m.minCol with
                   | some v => pyStr v
                   | none => "",
          ctype := analyze_cell_type (s.cellVal r c),
          isMerged := some true, mergedRange := some m }) ∧
    (s.merges.find? (owningPred r c) = none →
      ((extract_region_cells s startRow startCol maxRow maxCol).getD (r - startRow) []).getD
          (c - startCol) dummyCell =
        { row := r, col := c, value := "",
          ctype := analyze_cell_type (s.cellVal r c), isMerged := some true }) := by
  rw [extract_region_cells_getD s startRow startCol maxRow maxCol r c h1 h2 h3 h4]
  constructor
  · intro m hfind
    rw [cellInfoAt, if_pos hflag, hfind]
  · intro hfind
    rw [cellInfoAt, if_pos hflag, hfind]

/-- Witness for C6 (amended) at position (1,2) of `sheetM` (merge A1:B1 with
anchor value "Q1"): the descriptor reports `isMerged=true`, the merge, and
the anchor's value. -/
theorem c6_merged_cell_descriptor_witness :
    ((1 : Nat) ≤ 1 ∧ (1 : Nat) ≤ min 1 (1 + 5) ∧ (1 : Nat) ≤ 2 ∧ (2 : Nat) ≤ 2 ∧
      sheetM.mergedFlag 1 2 = true ∧
      sheetM.merges.find? (owningPred 1 2) = some ⟨1, 1, 1, 2⟩) ∧
    ((extract_region_cells sheetM 1 1 1 2).getD 0 []).getD 1 dummyCell =
      { row := 1, col := 2, value := "Q1", ctype := "empty",
        isMerged := some true, mergedRange := some ⟨1, 1, 1, 2⟩ } :=
  ⟨by decide,
    (c6_merged_cell_descriptor sheetM 1 1 1 2 1 2 (by decide) (by decide) (by decide)
        (by decide) (by decide)).1 ⟨1, 1, 1, 2⟩ (by decide)⟩

instance {ε α : Type} [DecidableEq ε] [DecidableEq α] : DecidableEq (Except ε α)
  | .error e, .error f =>
    if h : e = f then isTrue (congrArg Except.error h)
    else isFalse (fun hc => h (Except.error.inj hc))
  | .error _, .ok _ => isFalse (fun hc => Except.noConfusion hc)
  | .ok _, .error _ => isFalse (fun hc => Except.noConfusion hc)
  | .ok x, .ok y =>
    if h : x = y then isTrue (congrArg Except.ok h)
    else isFalse (fun hc => h (Except.ok.inj hc))

/-- Python `str.strip()`: drop leading and trailing whitespace (computable
by kernel reduction, unlike `String.trim`). -/
def pyStrip (s : String) : String :=
  ⟨((s.data.dropWhile Char.isWhitespace).reverse.dropWhile Char.isWhitespace).reverse⟩

/-! ## Header analysis (`detect_header_structure`) and the region record -/

/-- The parsed JSON reply of `openai_helper.analyze_table_structure`:
`analysis["headerStructure"]["type"]`, `...["rows"]` and
`analysis["confidence"]`, each possibly missing (`.get` with default). -/
structure TableStructureRsp where
  htype : Option String := none
  rows : Option (List Int) := none
  confidence : Option Nat := none

/-- The parsed JSON reply of `openai_helper.analyze_region_type`:
`region_analysis.get("regionType", "unknown")`. -/
structure RegionTypeRsp where
  regionTypeF : Option String := none

/-- The dictionary returned by `detect_header_structure`. -/
structure DetectedHeader where
  headerType : String
  headerRowsCount : Nat
  headerRows : List Int
  headerRange : String
  confidence : Nat
deriving DecidableEq

/-- Python `min` over a non-empty list of ints (callers guard emptiness). -/
def minD : List Int → Int
  | [] => 0
  | h :: t => t.foldl min h

/-- Python `max` over a non-empty list of ints (callers guard emptiness). -/
def maxD : List Int → Int
  | [] => 0
  | h :: t => t.foldl max h

/-- The sheet's per-region header structure as attached by `detect_regions`
(keys `headerType`, `headerRowsCount`, `headerRows`, `headerRange`,
`mergedCells`, `start_row`). -/
structure HeaderStructure where
  headerType : String
  headerRowsCount : Nat
  headerRows : List Int
  headerRange : String
  mergedCellsFlag : Bool
  startRow : Nat
deriving DecidableEq

/-- A detected region: the heterogeneous dictionaries of `detect_regions`
modelled as one record of optional fields (a key absent from the dictionary
is `none`).  Type-specific drawing payload extras (`image_ref`,
`diagram_type`, form-control state, ...) are claim-irrelevant and carried
abstractly by the drawing's text fields. -/
structure Region where
  regionType : String
  typeField : Option String := none
  range_ : Option CellRange := none
  dname : Option String := none
  descr : Option String := none
  coords : Option CellRange := none
  textContent : Option String := none
  chartTypeF : Option String := none
  sampleCells : Option (List (List CellInfo)) := none
  mergedCellsField : Option (List (MergedRange × Option CellValue)) := none
  headerStructure : Option HeaderStructure := none
  summary : Option String := none
  totalRegions : Option Nat := none
  drawingRegionsField : Option Nat := none
  cellRegionsField : Option Nat := none
deriving DecidableEq

/-- A default region, used only as the `getD` fallback in statements. -/
def dummyRegion : Region := { regionType := "" }

/-- The classification / summarization oracle (`openai_helper`), opaque and
fallible: `.error` models a raised exception at the call site. -/
structure Oracle where
  analyzeRegionType : List (List CellInfo) → List (MergedRange × Option CellValue) →
    Except String RegionTypeRsp
  analyzeTableStructure : List (List CellInfo) → List (MergedRange × Option CellValue) →
    Except String TableStructureRsp
  summarizeRegion : Region → Except String String
  generateSheetSummary : String → List Region → Nat → Nat → Except String String

/-- The default dictionary `detect_header_structure` returns on any caught
exception or non-string oracle reply. -/
def headerDefault : DetectedHeader :=
  { headerType := "none", headerRowsCount := 0, headerRows := [],
    headerRange := "N/A", confidence := 0 }

/-- `ExcelMetadataExtractor.detect_header_structure`: render the sample for
the oracle, parse the reply, and compute its own `headerRange` as
`f"{min}-{max}"` over the reported rows; the whole body is wrapped in
`try/except` returning the default dictionary, so this function never
raises. -/
def detect_header_structure (o : Oracle) (cellsData : List (List CellInfo))
    (mergedCells : List (MergedRange × Option CellValue)) : DetectedHeader :=
  match o.analyzeTableStructure cellsData mergedCells with
  | .error _ => headerDefault
  | .ok rsp =>
    let headerType := rsp.htype.getD "none"
    let headerRows := rsp.rows.getD []
    let headerRange :=
      if headerRows ≠ [] then
        toString (minD headerRows) ++ "-" ++ toString (maxD headerRows)
      else "N/A"
    { headerType := headerType, headerRowsCount := headerRows.length,
      headerRows := headerRows, headerRange := headerRange,
      confidence := rsp.confidence.getD 0 }

/-- The `header_range` recomputation inside `detect_regions` (lines
1161-1175): `"N/A"` without header rows; otherwise the single minimum row
when `headerType == "single"`, else `f"{min}-{max}"`. -/
def computeHeaderRange (hs : DetectedHeader) : String :=
  if hs.headerRows ≠ [] then
    let minHeaderRow := minD hs.headerRows
    let maxHeaderRow := maxD hs.headerRows
    if hs.headerType = "single" then toString minHeaderRow
    else toString minHeaderRow ++ "-" ++ toString maxHeaderRow
  else "N/A"

/-! ## Region orchestrator (`detect_regions`) -/

/-- The delimiter-only skip of the cell phase: a string value whose stripped
form is a single character among `-`, `_`, `=`. -/
def isDelimiterCell (v : Option CellValue) : Bool :=
  match v with
  | some (.text str) =>
    let t := pyStrip str
    t.length == 1 && (t == "-" || t == "_" || t == "=")
  | _ => false

/-- Membership of a cell coordinate in a rectangle. -/
def memRect (cr : CellRange) (r c : Nat) : Bool :=
  cr.fromRow ≤ r && r ≤ cr.toRow && cr.fromCol ≤ c && c ≤ cr.toCol

/-- All coordinates of a rectangle, as the orchestrator's nested
`for r in range(from_row, to_row + 1): for c in range(from_col, to_col + 1)`
marking loops produce them (a coordinate string `f"{letter}{row}"` is
modelled by the pair). -/
def rectCells (cr : CellRange) : List (Nat × Nat) :=
  (List.range' cr.fromRow (cr.toRow + 1 - cr.fromRow)).flatMap (fun r =>
    (List.range' cr.fromCol (cr.toCol + 1 - cr.fromCol)).map (fun c => (r, c)))

lemma mem_rectCells (cr : CellRange) (r c : Nat) :
    (r, c) ∈ rectCells cr ↔ memRect cr r c = true := by
  simp only [rectCells, List.mem_flatMap, List.mem_map, List.mem_range'_1, memRect,
    Bool.and_eq_true, decide_eq_true_eq]
  constructor
  · rintro ⟨a, ⟨ha1, ha2⟩, b, ⟨hb1, hb2⟩, heq⟩
    obtain ⟨rfl, rfl⟩ := Prod.mk.injEq .. ▸ heq
    omega
  · rintro ⟨⟨⟨h1, h2⟩, h3⟩, h4⟩
    exact ⟨r, by omega, c, by omega, rfl⟩

/-- The region record built for one drawing object (lines 1034-1076): type
tag, range, names and payload copied over; `coordinates` kept for the
consumed-cell marking. -/
def drawingRegion (d : Drawing) : Region :=
  { regionType := d.dtype, typeField := some d.dtype, range_ := some d.coords,
    dname := some d.dname, descr := some d.descr, coords := some d.coords,
    textContent := some d.textContent, chartTypeF := some d.chartTypeF }

/-- The consumed-cell set after the drawing phase: every coordinate of every
drawing's resolved rectangle. -/
def drawProcessed (s : Sheet) : List (Nat × Nat) :=
  s.drawings.flatMap (fun d => rectCells d.coords)

/-- The row-major scan order of the cell phase:
`for row in range(1, min(sheet.max_row + 1, 100))` by
`for col in range(1, min(sheet.max_column + 1, 20))`. -/
def scanCoords (s : Sheet) : List (Nat × Nat) :=
  (List.range' 1 (min (s.maxRow + 1) 100 - 1)).flatMap (fun r =>
    (List.range' 1 (min (s.maxCol + 1) 20 - 1)).map (fun c => (r, c)))

/-- The body of the cell-phase loop for one unconsumed, non-empty seed:
run the boundary scanner, skip pure delimiter cells, sample cells and
merges, classify through the oracle (a raised exception propagates), and
assemble the region dictionary, attaching the header structure for tables.
Returns `none` for the delimiter skip. -/
def processSeed (o : Oracle) (s : Sheet) (r c : Nat) : Except String (Option Region) :=
  let mm := find_region_boundaries s r c
  if isDelimiterCell (s.cellVal r c) then .ok none
  else
    let cellsData := extract_region_cells s r c mm.1 mm.2
    let mergedCells := get_merged_cells_info s r c mm.1 mm.2
    match o.analyzeRegionType cellsData (mergedCells.take 3) with
    | .error e => .error e
    | .ok rsp =>
      let regionType := rsp.regionTypeF.getD "unknown"
      let base : Region :=
        { regionType := regionType, range_ := some ⟨r, c, mm.1, mm.2⟩,
          sampleCells := some cellsData, mergedCellsField := some mergedCells }
      if regionType = "table" then
        let hs := detect_header_structure o cellsData mergedCells
        let hdr : HeaderStructure :=
          { headerType := hs.headerType, headerRowsCount := hs.headerRowsCount,
            headerRows := hs.headerRows, headerRange := computeHeaderRange hs,
            mergedCellsFlag := !mergedCells.isEmpty, startRow := r }
        .ok (some { base with headerStructure := some hdr })
      else .ok (some base)

/-- The two exits of the cell phase: the early `return regions` of the
region-count ceiling, or normal completion with the accumulated cell-region
list and consumed set. -/
inductive CellPhaseOut where
  | early (regions : List Region)
  | done (cellRegions : List Region) (processed : List (Nat × Nat))
deriving DecidableEq

/-- The cell-phase loop of `detect_regions` (lines 1096-1200): skip consumed
or empty coordinates, process each remaining seed, mark the detected box
consumed, and after appending check the ceiling `len(regions) >= 10` against
the *outer* `regions` list (still empty at this point of the source), whose
firing would return that outer list. -/
def cellPhaseLoop (o : Oracle) (s : Sheet) (regions : List Region) :
    List (Nat × Nat) → List (Nat × Nat) → List Region → Except String CellPhaseOut
  | [], processed, cellRegions => .ok (.done cellRegions processed)
  | (r, c) :: rest, processed, cellRegions =>
    if (r, c) ∈ processed ∨ s.cellVal r c = none then
      cellPhaseLoop o s regions rest processed cellRegions
    else
      match processSeed o s r c with
      | .error e => .error e
      | .ok none => cellPhaseLoop o s regions rest processed cellRegions
      | .ok (some reg) =>
        let rect := reg.range_.getD ⟨r, c, r, c⟩
        if regions.length ≥ 10 then .ok (.early regions)
        else cellPhaseLoop o s regions rest (processed ++ rectCells rect)
          (cellRegions ++ [reg])

/-- The summarization phase (lines 1202-1208): one oracle summary per region
of `drawing_regions + cell_regions`, in order; a raised exception
propagates.  (`regionType` is always present, so the `"regionType" not in
region` branch of the source is vacuous.) -/
def summarizeAll (o : Oracle) : List Region → Except String (List Region)
  | [] => .ok []
  | reg :: rest =>
    match o.summarizeRegion reg with
    | .error e => .error e
    | .ok str =>
      match summarizeAll o rest with
      | .error e => .error e
      | .ok rest' => .ok ({ reg with summary := some str } :: rest')

/-- `ExcelMetadataExtractor.detect_regions`: drawing phase (regions from the
sheet's drawing objects, their rectangles marked consumed), cell phase,
summarization, then — only when at least one region exists — the synthetic
metadata region carrying `totalRegions` / `drawingRegions` / `cellRegions`
counts and a sheet summary, appended last.  The trailing
`except Exception: ... raise` re-raises, so an error propagates unchanged. -/
def detect_regions (o : Oracle) (s : Sheet) : Except String (List Region) :=
  let drawingRegions := s.drawings.map drawingRegion
  match cellPhaseLoop o s [] (scanCoords s) (drawProcessed s) [] with
  | .error e => .error e
  | .ok (.early rs) => .ok rs
  | .ok (.done cellRegions _) =>
    match summarizeAll o (drawingRegions ++ cellRegions) with
    | .error e => .error e
    | .ok summarized =>
      let regions := summarized
      if regions = [] then .ok regions
      else
        match o.generateSheetSummary s.title regions drawingRegions.length
            cellRegions.length with
        | .error e => .error e
        | .ok summ =>
          let metadataRegion : Region :=
            { regionType := "metadata", typeField := some "metadata",
              totalRegions := some regions.length,
              drawingRegionsField := some drawingRegions.length,
              cellRegionsField := some cellRegions.length,
              summary := some summ }
          .ok (regions ++ [metadataRegion])

/-! ## Workbook level (`get_file_metadata`, `get_sheet_metadata`,
`extract_all_metadata`) -/

/-- The file-level property block of `get_file_metadata` (datetimes carried
as their `isoformat()` rendering). -/
structure FileProps where
  createdTime : Option String
  modifiedTime : Option String
  fileSize : Nat
  author : Option String
  lastModifiedBy : Option String
  isPasswordProtected : Bool
deriving DecidableEq

/-- The opened workbook together with the file object's attributes. -/
structure Workbook where
  fileName : String
  fileSize : Nat
  created : Option String := none
  modified : Option String := none
  author : Option String := none
  lastModifiedBy : Option String := none
  sheets : List Sheet

/-- The value of `get_file_metadata` (its `try/except ...: raise` is the
identity on the outcome). -/
def get_file_metadata (wb : Workbook) : String × FileProps :=
  (wb.fileName,
    { createdTime := wb.created, modifiedTime := wb.modified, fileSize := wb.fileSize,
      author := wb.author, lastModifiedBy := wb.lastModifiedBy,
      isPasswordProtected := false })

/-- One worksheet's metadata dictionary (`mergedCells` strings modelled by
the merge records). -/
structure SheetMeta where
  sheetName : String
  isProtected : Bool
  rowCount : Nat
  columnCount : Nat
  hasPivotTables : Bool
  hasCharts : Bool
  mergedCells : List MergedRange
  regions : List Region
deriving DecidableEq

/-- The per-sheet loop of `get_sheet_metadata`: sheets in workbook order,
each calling `detect_regions`; an exception aborts the whole loop (the
enclosing `try/except ...: raise` re-raises it). -/
def sheetMetaList (o : Oracle) : List Sheet → Except String (List SheetMeta)
  | [] => .ok []
  | sheet :: rest =>
    match detect_regions o sheet with
    | .error e => .error e
    | .ok regions =>
      match sheetMetaList o rest with
      | .error e => .error e
      | .ok rest' =>
        let meta : SheetMeta :=
          { sheetName := sheet.title, isProtected := sheet.protectionSheet,
            rowCount := sheet.maxRow, columnCount := sheet.maxCol,
            hasPivotTables := sheet.hasPivots, hasCharts := sheet.hasCharts,
            mergedCells := sheet.merges, regions := regions }
        .ok (meta :: rest')

/-- `ExcelMetadataExtractor.get_sheet_metadata`. -/
def get_sheet_metadata (o : Oracle) (wb : Workbook) : Except String (List SheetMeta) :=
  sheetMetaList o wb.sheets

/-- The full output document of `extract_all_metadata`
(`crossSheetRelationships` is reserved and always empty). -/
structure AllMeta where
  fileName : String
  fileProperties : FileProps
  worksheets : List SheetMeta
  crossSheetRelationships : List String := []
deriving DecidableEq

/-- `ExcelMetadataExtractor.extract_all_metadata`: file metadata, sheet
metadata, then the `del region["sampleCells"]` scrub over every region of
every sheet before assembling the result; its `try/except ...: raise`
re-raises any exception. -/
def extract_all_metadata (o : Oracle) (wb : Workbook) : Except String AllMeta :=
  let fm := get_file_metadata wb
  match get_sheet_metadata o wb with
  | .error e => .error e
  | .ok sheetsMetadata =>
    let scrubbed := sheetsMetadata.map (fun ws =>
      { ws with regions := ws.regions.map (fun rg => { rg with sampleCells := none }) })
    .ok { fileName := fm.1, fileProperties := fm.2, worksheets := scrubbed,
          crossSheetRelationships := [] }

/-! ## Helper lemmas about the cell phase -/

lemma processSeed_shape (o : Oracle) (s : Sheet) (r c : Nat) (reg : Region)
    (h : processSeed o s r c = .ok (some reg)) :
    reg.range_ = some ⟨r, c, (find_region_boundaries s r c).1,
      (find_region_boundaries s r c).2⟩ ∧
    reg.sampleCells = some (extract_region_cells s r c
      (find_region_boundaries s r c).1 (find_region_boundaries s r c).2) := by
  unfold processSeed at h
  by_cases hdel : isDelimiterCell (s.cellVal r c)
  · rw [if_pos hdel] at h
    exact absurd (Except.ok.inj h) (by simp)
  · rw [if_neg hdel] at h
    rcases ha : o.analyzeRegionType
        (extract_region_cells s r c (find_region_boundaries s r c).1
          (find_region_boundaries s r c).2)
        ((get_merged_cells_info s r c (find_region_boundaries s r c).1
          (find_region_boundaries s r c).2).take 3) with e | rsp
    · simp only [ha] at h
      exact absurd h (by simp)
    · simp only [ha] at h
      by_cases ht : rsp.regionTypeF.getD "unknown" = "table"
      · rw [if_pos ht] at h
        have hreg := Option.some.inj (Except.ok.inj h)
        subst hreg
        exact ⟨rfl, rfl⟩
      · rw [if_neg ht] at h
        have hreg := Option.some.inj (Except.ok.inj h)
        subst hreg
        exact ⟨rfl, rfl⟩

lemma cellPhaseLoop_early_eq (o : Oracle) (s : Sheet) (regions : List Region) :
    ∀ (todo processed : List (Nat × Nat)) (acc rs : List Region),
      cellPhaseLoop o s regions todo processed acc = .ok (.early rs) → rs = regions := by
  intro todo
  induction todo with
  | nil =>
    intro processed acc rs h
    rw [cellPhaseLoop] at h
    exact absurd (Except.ok.inj h) (by simp)
  | cons p rest ih =>
    intro processed acc rs h
    obtain ⟨r, c⟩ := p
    rw [cellPhaseLoop] at h
    by_cases hskip : (r, c) ∈ processed ∨ s.cellVal r c = none
    · rw [if_pos hskip] at h
      exact ih processed acc rs h
    · rw [if_neg hskip] at h
      rcases hps : processSeed o s r c with e | oreg
      · rw [hps] at h; exact absurd h (by simp)
      · rw [hps] at h
        cases oreg with
        | none => exact ih processed acc rs h
        | some reg =>
          simp only at h
          by_cases hceil : regions.length ≥ 10
          · rw [if_pos hceil] at h
            have := Except.ok.inj h
            cases this
            rfl
          · rw [if_neg hceil] at h
            exact ih _ _ rs h

/-! ## Concrete oracles for evaluation -/

/-- A deterministic, never-failing oracle: every cell region classifies as
`"text"`, summaries are fixed strings.  Used to evaluate the orchestrator on
concrete sheets. -/
def oracleTriv : Oracle where
  analyzeRegionType := fun _ _ => .ok { regionTypeF := some "text" }
  analyzeTableStructure := fun _ _ => .ok {}
  summarizeRegion := fun _ => .ok "region summary"
  generateSheetSummary := fun _ _ _ _ => .ok "sheet summary"

/-- An oracle that classifies every cell region as a table with header type
`"multiple"` and a single header row 2. -/
def oracleMulti : Oracle where
  analyzeRegionType := fun _ _ => .ok { regionTypeF := some "table" }
  analyzeTableStructure := fun _ _ =>
    .ok { htype := some "multiple", rows := some [2], confidence := some 5 }
  summarizeRegion := fun _ => .ok "region summary"
  generateSheetSummary := fun _ _ _ _ => .ok "sheet summary"

/-- A 1×1 sheet with the single text cell "a". -/
def sheetOne : Sheet where
  maxRow := 1
  maxCol := 1
  cellVal := fun r c => if r = 1 ∧ c = 1 then some (.text "a") else none

/-- C9 counterexample: with a header analysis reporting
`headerType="multiple"` and `headerRows=[2]` (minimum = maximum header row),
the table region attached by `detect_regions` carries
`headerRange = "2-2"`, not the single row number `"2"` the claim requires
for min = max — the source branches on `headerType == "single"`, not on
min = max. -/
theorem c9_counterexample :
    minD [2] = maxD [2] ∧
    (((detect_regions oracleMulti sheetOne).toOption.getD []).getD 0
        dummyRegion).headerStructure =
      some { headerType := "multiple", headerRowsCount := 1, headerRows := [2],
             headerRange := "2-2", mergedCellsFlag := false, startRow := 1 } ∧
    ("2-2" : String) ≠ "2" := by
  refine ⟨by decide, by decide, by decide⟩

/-- C9 as amended: for a table region assembled by the cell phase, a
non-empty header-row list yields `headerRange` rendered as the single
minimum row number exactly when the reported `headerType` is `"single"`,
and as `"{min}-{max}"` otherwise (regardless of whether min = max). -/
theorem c9_header_range_rendering (o : Oracle) (s : Sheet) (r c : Nat) (reg : Region)
    (h : HeaderStructure)
    (hps : processSeed o s r c = .ok (some reg))
    (hh : reg.headerStructure = some h)
    (hrows : h.headerRows ≠ []) :
    h.headerRange =
      if h.headerType = "single" then toString (minD h.headerRows)
      else toString (minD h.headerRows) ++ "-" ++ toString (maxD h.headerRows) := by
  unfold processSeed at hps
  by_cases hdel : isDelimiterCell (s.cellVal r c)
  · rw [if_pos hdel] at hps
    exact absurd (Except.ok.inj hps) (by simp)
  · rw [if_neg hdel] at hps
    rcases ha : o.analyzeRegionType
        (extract_region_cells s r c (find_region_boundaries s r c).1
          (find_region_boundaries s r c).2)
        ((get_merged_cells_info s r c (find_region_boundaries s r c).1
          (find_region_boundaries s r c).2).take 3) with e | rsp
    · simp only [ha] at hps
      exact absurd hps (by simp)
    · simp only [ha] at hps
      by_cases ht : rsp.regionTypeF.getD "unknown" = "table"
      · rw [if_pos ht] at hps
        have hreg := Option.some.inj (Except.ok.inj hps)
        subst hreg
        simp only at hh
        have hh2 := Option.some.inj hh
        subst hh2
        simp only at hrows ⊢
        rw [computeHeaderRange, if_pos hrows]
      · rw [if_neg ht] at hps
        have hreg := Option.some.inj (Except.ok.inj hps)
        subst hreg
        simp at hh

/-- The region produced by the single seed of `sheetOne` under
`oracleMulti`, and its attached header structure. -/
def regionOne : Region :=
  ((processSeed oracleMulti sheetOne 1 1).toOption.getD none).getD dummyRegion

/-- The header structure attached to `regionOne`. -/
def headerOne : HeaderStructure :=
  regionOne.headerStructure.getD
    { headerType := "", headerRowsCount := 0, headerRows := [],
      headerRange := "", mergedCellsFlag := false, startRow := 0 }

/-- Witness for C9 (amended) on `sheetOne` under `oracleMulti`. -/
theorem c9_header_range_rendering_witness :
    (processSeed oracleMulti sheetOne 1 1 = .ok (some regionOne) ∧
      regionOne.headerStructure = some headerOne ∧ headerOne.headerRows ≠ []) ∧
    headerOne.headerRange =
      (if headerOne.headerType = "single" then toString (minD headerOne.headerRows)
       else toString (minD headerOne.headerRows) ++ "-" ++
         toString (maxD headerOne.headerRows)) :=
  ⟨⟨by decide, by decide, by decide⟩,
    c9_header_range_rendering oracleMulti sheetOne 1 1 regionOne headerOne
      (by decide) (by decide) (by decide)⟩

/-- A sheet with twelve isolated text cells in column 1, at the odd rows
1, 3, ..., 23: every seed yields its own one-cell region. -/
def sheet12 : Sheet where
  maxRow := 23
  maxCol := 1
  cellVal := fun r c =>
    if c = 1 ∧ r % 2 = 1 ∧ r ≤ 23 then some (.text "x") else none

/-- C4: the region-count ceiling of the cell phase never fires.  On a sheet
with twelve separate cell regions the orchestrator processes all twelve and
returns 13 regions (12 cell regions plus the metadata region) — the guard
`len(regions) >= 10` tests the outer `regions` list, which is still empty
inside the loop, so the claimed early stop at 10 regions does not happen. -/
theorem c4_ceiling_never_fires :
    (detect_regions oracleTriv sheet12).map List.length = .ok 13 ∧ 13 > 10 := by
  refine ⟨by decide, by norm_num⟩

/-- C5 counterexample: on a sheet with no drawing and no cell regions,
`detect_regions` returns the empty list — no synthetic metadata-typed region
is appended (`if regions:` fails), contradicting the claim that every
sheet's list ends with exactly one metadata region. -/
theorem c5_counterexample :
    detect_regions oracleTriv sheetTriv = .ok ([] : List Region) := by
  decide

lemma summarizeAll_length (o : Oracle) :
    ∀ (l l' : List Region), summarizeAll o l = .ok l' → l'.length = l.length := by
  intro l
  induction l with
  | nil =>
    intro l' h
    rw [summarizeAll] at h
    rw [← Except.ok.inj h]
  | cons reg rest ih =>
    intro l' h
    rw [summarizeAll] at h
    rcases hs : o.summarizeRegion reg with e | str
    · rw [hs] at h; exact absurd h (by simp)
    · rw [hs] at h
      rcases hr : summarizeAll o rest with e | rest'
      · rw [hr] at h; exact absurd h (by simp)
      · rw [hr] at h
        rw [← Except.ok.inj h]
        simp [ih rest' hr]

lemma summarizeAll_append (o : Oracle) :
    ∀ (l1 l2 : List Region) (l : List Region),
      summarizeAll o (l1 ++ l2) = .ok l →
      ∃ a b, summarizeAll o l1 = .ok a ∧ summarizeAll o l2 = .ok b ∧ l = a ++ b := by
  intro l1
  induction l1 with
  | nil =>
    intro l2 l h
    exact ⟨[], l, rfl, h, rfl⟩
  | cons reg rest ih =>
    intro l2 l h
    rw [List.cons_append, summarizeAll] at h
    rcases hs : o.summarizeRegion reg with e | str
    · rw [hs] at h; exact absurd h (by simp)
    · rw [hs] at h
      rcases hr : summarizeAll o (rest ++ l2) with e | rl
      · rw [hr] at h; exact absurd h (by simp)
      · rw [hr] at h
        obtain ⟨a, b, ha, hb, rfl⟩ := ih l2 rl hr
        refine ⟨{ reg with summary := some str } :: a, b, ?_, hb, ?_⟩
        · rw [summarizeAll, hs, ha]
        · rw [← Except.ok.inj h, List.cons_append]

/-- The output shape that C5 (amended) asserts for a non-empty result of
`detect_regions`: summarized drawing regions first, then summarized cell
regions, then exactly one metadata-typed region whose counts equal the two
provenance counts. -/
def regionListShape (o : Oracle) (s : Sheet) (rs : List Region) : Prop :=
  ∃ ds cs meta cs0 proc,
    cellPhaseLoop o s [] (scanCoords s) (drawProcessed s) [] = .ok (.done cs0 proc) ∧
    summarizeAll o (s.drawings.map drawingRegion) = .ok ds ∧
    summarizeAll o cs0 = .ok cs ∧
    rs = ds ++ cs ++ [meta] ∧
    ds.length = s.drawings.length ∧
    cs.length = cs0.length ∧
    meta.regionType = "metadata" ∧
    meta.totalRegions = some (ds.length + cs.length) ∧
    meta.drawingRegionsField = some ds.length ∧
    meta.cellRegionsField = some cs.length

/-- C5 as amended: whenever `detect_regions` succeeds with a *non-empty*
list, that list is the drawing-derived regions in order, then the
cell-derived regions, then exactly one metadata-typed region carrying
`totalRegions = drawing + cell` and the two per-provenance counts.  (When no
region at all was found the returned list is empty and carries no metadata
region — see the counterexample.) -/
theorem c5_region_list_order (o : Oracle) (s : Sheet) (rs : List Region)
    (h : detect_regions o s = .ok rs) (hne : rs ≠ []) :
    regionListShape o s rs := by
  unfold detect_regions at h
  rcases hcp : cellPhaseLoop o s [] (scanCoords s) (drawProcessed s) [] with e | out
  · rw [hcp] at h; exact absurd h (by simp)
  · rw [hcp] at h
    cases out with
    | early rs0 =>
      have := cellPhaseLoop_early_eq o s [] (scanCoords s) (drawProcessed s) [] rs0 hcp
      subst this
      simp only at h
      exact absurd (Except.ok.inj h).symm hne
    | done cellRegions proc =>
      simp only at h
      rcases hsum : summarizeAll o (s.drawings.map drawingRegion ++ cellRegions)
        with e | summarized
      · rw [hsum] at h; exact absurd h (by simp)
      · simp only [hsum] at h
        by_cases hemp : summarized = ([] : List Region)
        · rw [if_pos hemp] at h
          exact absurd ((Except.ok.inj h).symm.trans hemp) hne
        · rw [if_neg hemp] at h
          rcases hgen : o.generateSheetSummary s.title summarized
              (s.drawings.map drawingRegion).length cellRegions.length with e | summ
          · rw [hgen] at h; exact absurd h (by simp)
          · rw [hgen] at h
            obtain ⟨ds, cs, hds, hcs, hdc⟩ :=
              summarizeAll_append o (s.drawings.map drawingRegion) cellRegions
                summarized hsum
            subst hdc
            have hdslen : ds.length = s.drawings.length := by
              have := summarizeAll_length o (s.drawings.map drawingRegion) ds hds
              simpa using this
            have hcslen : cs.length = cellRegions.length :=
              summarizeAll_length o cellRegions cs hcs
            refine ⟨ds, cs,
              { regionType := "metadata", typeField := some "metadata",
                summary := some summ, totalRegions := some (ds ++ cs).length,
                drawingRegionsField := some (s.drawings.map drawingRegion).length,
                cellRegionsField := some cellRegions.length },
              cellRegions, proc, hcp, hds, hcs, ?_, hdslen, hcslen, rfl, ?_, ?_, ?_⟩
            · rw [← Except.ok.inj h, List.append_assoc]
            · simp only
              rw [List.length_append]
            · simp only [List.length_map]
              rw [hdslen]
            · simp only
              rw [hcslen]

/-- The concrete region list of `sheetOv` under the trivial oracle. -/
def regionsOv : List Region := (detect_regions oracleTriv sheetOv).toOption.getD []

/-- Witness for C5 (amended) on `sheetOv`: two cell regions and the final
metadata region. -/
theorem c5_region_list_order_witness :
    (detect_regions oracleTriv sheetOv = .ok regionsOv ∧ regionsOv ≠ []) ∧
    regionListShape oracleTriv sheetOv regionsOv :=
  ⟨⟨by decide, by decide⟩,
    c5_region_list_order oracleTriv sheetOv regionsOv (by decide) (by decide)⟩

/-- C1 counterexample: on `sheetOv` (cells (1,2), (2,1), (2,2) occupied,
(1,1) empty) the cell phase emits the region B1:B2 = (1,2)-(2,2) seeded at
(1,2) and then the region A2:B2 = (2,1)-(2,2) seeded at (2,1) — the second
seed is not consumed, but its grown rectangle re-covers (2,2).  The two
cell-derived rectangles share the cell (2,2), so they are not pairwise
disjoint. -/
theorem c1_counterexample :
    ((detect_regions oracleTriv sheetOv).toOption.getD []).map (fun rg => rg.range_) =
      [some ⟨1, 2, 2, 2⟩, some ⟨2, 1, 2, 2⟩, none] ∧
    memRect ⟨1, 2, 2, 2⟩ 2 2 = true ∧ memRect ⟨2, 1, 2, 2⟩ 2 2 = true := by
  refine ⟨by decide, by decide, by decide⟩

/-- `b`'s seed (its range's top-left corner) lies outside `a`'s rectangle. -/
def regionSeedOutside (a b : Region) : Prop :=
  ∀ ra rb, a.range_ = some ra → b.range_ = some rb →
    memRect ra rb.fromRow rb.fromCol = false

lemma cellPhaseLoop_seed_inv (o : Oracle) (s : Sheet) (regions : List Region) :
    ∀ (todo processed : List (Nat × Nat)) (acc cs : List Region)
      (proc : List (Nat × Nat)),
      (∀ d ∈ s.drawings, ∀ r c, memRect d.coords r c = true → (r, c) ∈ processed) →
      (∀ rg ∈ acc, ∀ ra, rg.range_ = some ra →
        ∀ r c, memRect ra r c = true → (r, c) ∈ processed) →
      List.Pairwise regionSeedOutside acc →
      (∀ rg ∈ acc, ∀ ra, rg.range_ = some ra →
        ∀ d ∈ s.drawings, memRect d.coords ra.fromRow ra.fromCol = false) →
      cellPhaseLoop o s regions todo processed acc = .ok (.done cs proc) →
      List.Pairwise regionSeedOutside cs ∧
      (∀ rg ∈ cs, ∀ ra, rg.range_ = some ra →
        ∀ d ∈ s.drawings, memRect d.coords ra.fromRow ra.fromCol = false) := by
  intro todo
  induction todo with
  | nil =>
    intro processed acc cs proc _ _ hpair hclear h
    rw [cellPhaseLoop] at h
    have := Except.ok.inj h
    cases this
    exact ⟨hpair, hclear⟩
  | cons p rest ih =>
    intro processed acc cs proc hdraw hacc hpair hclear h
    obtain ⟨r, c⟩ := p
    rw [cellPhaseLoop] at h
    by_cases hskip : (r, c) ∈ processed ∨ s.cellVal r c = none
    · rw [if_pos hskip] at h
      exact ih processed acc cs proc hdraw hacc hpair hclear h
    · rw [if_neg hskip] at h
      have hseed : (r, c) ∉ processed := fun hmem => hskip (Or.inl hmem)
      rcases hps : processSeed o s r c with e | oreg
      · rw [hps] at h; exact absurd h (by simp)
      · rw [hps] at h
        cases oreg with
        | none => exact ih processed acc cs proc hdraw hacc hpair hclear h
        | some reg =>
          simp only at h
          by_cases hceil : regions.length ≥ 10
          · rw [if_pos hceil] at h
            exact absurd (Except.ok.inj h) (by simp)
          · rw [if_neg hceil] at h
            obtain ⟨hrange, _⟩ := processSeed_shape o s r c reg hps
            set rect : CellRange :=
              ⟨r, c, (find_region_boundaries s r c).1, (find_region_boundaries s r c).2⟩
              with hrect
            have hgetD : reg.range_.getD ⟨r, c, r, c⟩ = rect := by rw [hrange]; rfl
            rw [hgetD] at h
            refine ih (processed ++ rectCells rect) (acc ++ [reg]) cs proc ?_ ?_ ?_ ?_ h
            · intro d hd r' c' hm
              exact List.mem_append_left _ (hdraw d hd r' c' hm)
            · intro rg hrg ra hra r' c' hm
              rcases List.mem_append.mp hrg with hin | hin
              · exact List.mem_append_left _ (hacc rg hin ra hra r' c' hm)
              · have : rg = reg := List.mem_singleton.mp hin
                subst this
                rw [hrange] at hra
                have : rect = ra := Option.some.inj hra
                subst this
                exact List.mem_append_right _ ((mem_rectCells _ r' c').mpr hm)
            · rw [List.pairwise_append]
              refine ⟨hpair, List.pairwise_singleton _ _, ?_⟩
              intro a hain b hbin
              have : b = reg := List.mem_singleton.mp hbin
              subst this
              intro ra rb hra hrb
              rw [hrange] at hrb
              have : rect = rb := Option.some.inj hrb
              subst this
              cases hm : memRect ra rect.fromRow rect.fromCol
              · rfl
              · exact absurd (hacc a hain ra hra rect.fromRow rect.fromCol hm) hseed
            · intro rg hrg ra hra d hd
              rcases List.mem_append.mp hrg with hin | hin
              · exact hclear rg hin ra hra d hd
              · have : rg = reg := List.mem_singleton.mp hin
                subst this
                rw [hrange] at hra
                have : rect = ra := Option.some.inj hra
                subst this
                cases hm : memRect d.coords rect.fromRow rect.fromCol
                · rfl
                · exact absurd (hdraw d hd rect.fromRow rect.fromCol hm) hseed

/-- C1 as amended: the consumed-cell set guarantees seed disjointness, not
rectangle disjointness.  For the cell-derived region list of any sheet,
each region's seed (top-left) cell lies outside the rectangle of every
earlier cell-derived region and outside the rectangle of every
drawing-derived region; full rectangles of two cell-derived regions can
still overlap (see the counterexample). -/
theorem c1_seed_outside_prior_regions (o : Oracle) (s : Sheet) (cs : List Region)
    (proc : List (Nat × Nat))
    (h : cellPhaseLoop o s [] (scanCoords s) (drawProcessed s) [] = .ok (.done cs proc)) :
    List.Pairwise regionSeedOutside cs ∧
    (∀ rg ∈ cs, ∀ ra, rg.range_ = some ra →
      ∀ d ∈ s.drawings, memRect d.coords ra.fromRow ra.fromCol = false) := by
  refine cellPhaseLoop_seed_inv o s [] (scanCoords s) (drawProcessed s) [] cs proc
    ?_ ?_ ?_ ?_ h
  · intro d hd r c hm
    simp only [drawProcessed, List.mem_flatMap]
    exact ⟨d, hd, (mem_rectCells d.coords r c).mpr hm⟩
  · intro rg hrg; exact absurd hrg (List.not_mem_nil rg)
  · exact List.Pairwise.nil
  · intro rg hrg; exact absurd hrg (List.not_mem_nil rg)

/-- The cell-phase output on `sheetOv` under the trivial oracle. -/
def cellPhaseOv : Except String CellPhaseOut :=
  cellPhaseLoop oracleTriv sheetOv [] (scanCoords sheetOv) (drawProcessed sheetOv) []

/-- The cell-derived regions of `sheetOv`. -/
def csOv : List Region :=
  match cellPhaseOv with
  | .ok (.done cs _) => cs
  | _ => []

/-- The consumed set of `sheetOv` after the cell phase. -/
def procOv : List (Nat × Nat) :=
  match cellPhaseOv with
  | .ok (.done _ p) => p
  | _ => []

/-- Witness for C1 (amended) on `sheetOv`. -/
theorem c1_seed_outside_prior_regions_witness :
    (cellPhaseLoop oracleTriv sheetOv [] (scanCoords sheetOv) (drawProcessed sheetOv) [] =
      .ok (.done csOv procOv)) ∧
    (List.Pairwise regionSeedOutside csOv ∧
      (∀ rg ∈ csOv, ∀ ra, rg.range_ = some ra →
        ∀ d ∈ sheetOv.drawings, memRect d.coords ra.fromRow ra.fromCol = false)) :=
  ⟨by decide,
    c1_seed_outside_prior_regions oracleTriv sheetOv csOv procOv (by decide)⟩

/-- An oracle whose region-type classification raises (models any
unexpected exception inside one sheet's region detection). -/
def oracleFail : Oracle where
  analyzeRegionType := fun _ _ => .error "boom"
  analyzeTableStructure := fun _ _ => .ok {}
  summarizeRegion := fun _ => .ok "region summary"
  generateSheetSummary := fun _ _ _ _ => .ok "sheet summary"

/-- A two-sheet workbook: an empty first sheet (whose detection needs no
oracle call and succeeds) and `sheetOne`, whose detection raises under
`oracleFail`. -/
def wbTwo : Workbook where
  fileName := "book.xlsx"
  fileSize := 10
  sheets := [sheetTriv, sheetOne]

/-- C2 counterexample: an unexpected exception while detecting `sheetOne`'s
regions is *not* absorbed at the sheet boundary — `extract_all_metadata` on
the two-sheet workbook raises (`.error "boom"`), returning no worksheet
metadata at all, even though the other sheet on its own extracts fine
(`detect_regions` succeeds on it). -/
theorem c2_counterexample :
    extract_all_metadata oracleFail wbTwo = .error "boom" ∧
    detect_regions oracleFail sheetTriv = .ok ([] : List Region) := by
  refine ⟨by decide, by decide⟩

lemma sheetMetaList_error (o : Oracle) (sh : Sheet) (post : List Sheet) (e : String)
    (herr : detect_regions o sh = .error e) :
    ∀ (pre : List Sheet), (∀ p ∈ pre, ∃ rs, detect_regions o p = .ok rs) →
      sheetMetaList o (pre ++ sh :: post) = .error e := by
  intro pre
  induction pre with
  | nil =>
    intro _
    rw [List.nil_append, sheetMetaList, herr]
  | cons p rest ih =>
    intro hok
    obtain ⟨rs, hrs⟩ := hok p (List.mem_cons_self _ _)
    have hrest := ih (fun q hq => hok q (List.mem_cons_of_mem _ hq))
    rw [List.cons_append, sheetMetaList, hrs, hrest]

/-- C2 as amended: an unexpected exception raised while detecting one
sheet's regions is caught, logged and *re-raised* at every level
(`detect_regions`, `get_sheet_metadata`, `extract_all_metadata`): the whole
extraction fails with that exception, so the failing sheet does not
contribute an empty region list and the other sheets' metadata is not
returned either. -/
theorem c2_sheet_failure_aborts_extraction (o : Oracle) (wb : Workbook)
    (pre post : List Sheet) (sh : Sheet) (e : String)
    (hsplit : wb.sheets = pre ++ sh :: post)
    (hok : ∀ p ∈ pre, ∃ rs, detect_regions o p = .ok rs)
    (herr : detect_regions o sh = .error e) :
    get_sheet_metadata o wb = .error e ∧ extract_all_metadata o wb = .error e := by
  have hsm : get_sheet_metadata o wb = .error e := by
    rw [get_sheet_metadata, hsplit]
    exact sheetMetaList_error o sh post e herr pre hok
  refine ⟨hsm, ?_⟩
  rw [extract_all_metadata, hsm]

/-- Witness for C2 (amended) on `wbTwo` under `oracleFail`. -/
theorem c2_sheet_failure_aborts_extraction_witness :
    (wbTwo.sheets = [sheetTriv] ++ sheetOne :: [] ∧
      detect_regions oracleFail sheetOne = .error "boom") ∧
    (get_sheet_metadata oracleFail wbTwo = .error "boom" ∧
      extract_all_metadata oracleFail wbTwo = .error "boom") :=
  ⟨⟨rfl, by decide⟩,
    c2_sheet_failure_aborts_extraction oracleFail wbTwo [sheetTriv] [] sheetOne "boom"
      rfl
      (fun p hp => by
        rw [List.mem_singleton] at hp
        subst hp
        exact ⟨[], by decide⟩)
      (by decide)⟩

lemma cellPhaseLoop_sample_attached (o : Oracle) (s : Sheet) (regions : List Region) :
    ∀ (todo processed : List (Nat × Nat)) (acc cs : List Region)
      (proc : List (Nat × Nat)),
      (∀ rg ∈ acc, rg.sampleCells ≠ none) →
      cellPhaseLoop o s regions todo processed acc = .ok (.done cs proc) →
      ∀ rg ∈ cs, rg.sampleCells ≠ none := by
  intro todo
  induction todo with
  | nil =>
    intro processed acc cs proc hacc h
    rw [cellPhaseLoop] at h
    have := Except.ok.inj h
    cases this
    exact hacc
  | cons p rest ih =>
    intro processed acc cs proc hacc h
    obtain ⟨r, c⟩ := p
    rw [cellPhaseLoop] at h
    by_cases hskip : (r, c) ∈ processed ∨ s.cellVal r c = none
    · rw [if_pos hskip] at h
      exact ih processed acc cs proc hacc h
    · rw [if_neg hskip] at h
      rcases hps : processSeed o s r c with e | oreg
      · rw [hps] at h; exact absurd h (by simp)
      · rw [hps] at h
        cases oreg with
        | none => exact ih processed acc cs proc hacc h
        | some reg =>
          simp only at h
          by_cases hceil : regions.length ≥ 10
          · rw [if_pos hceil] at h
            exact absurd (Except.ok.inj h) (by simp)
          · rw [if_neg hceil] at h
            refine ih _ (acc ++ [reg]) cs proc ?_ h
            intro rg hrg
            rcases List.mem_append.mp hrg with hin | hin
            · exact hacc rg hin
            · have hre : rg = reg := List.mem_singleton.mp hin
              obtain ⟨_, hsample⟩ := processSeed_shape o s r c reg hps
              rw [hre, hsample]
              simp

/-- C10: `extract_all_metadata` deletes `sampleCells` from every region of
every worksheet before returning — no region of the public output carries
the field — even though the cell phase of `detect_regions` attaches
`sampleCells` to every cell-derived region it emits. -/
theorem c10_sample_cells_scrubbed (o : Oracle) (wb : Workbook) (md : AllMeta)
    (h : extract_all_metadata o wb = .ok md) :
    (∀ ws ∈ md.worksheets, ∀ rg ∈ ws.regions, rg.sampleCells = none) ∧
    (∀ (s : Sheet) (cs : List Region) (proc : List (Nat × Nat)),
      cellPhaseLoop o s [] (scanCoords s) (drawProcessed s) [] = .ok (.done cs proc) →
      ∀ rg ∈ cs, rg.sampleCells ≠ none) := by
  constructor
  · intro ws hws rg hrg
    unfold extract_all_metadata at h
    rcases hsm : get_sheet_metadata o wb with e | sm
    · rw [hsm] at h; exact absurd h (by simp)
    · simp only [hsm] at h
      have hmd := Except.ok.inj h
      subst hmd
      simp only [List.mem_map] at hws
      obtain ⟨ws0, _, rfl⟩ := hws
      simp only [List.mem_map] at hrg
      obtain ⟨rg0, _, rfl⟩ := hrg
      rfl
  · intro s cs proc hcp
    exact cellPhaseLoop_sample_attached o s [] (scanCoords s) (drawProcessed s) [] cs
      proc (fun rg hrg => absurd hrg (List.not_mem_nil rg)) hcp

/-- A one-sheet workbook around `sheetOv`. -/
def wbOv : Workbook where
  fileName := "ov.xlsx"
  fileSize := 5
  sheets := [sheetOv]

/-- The concrete output document of `extract_all_metadata` on `wbOv`. -/
def mdOv : AllMeta :=
  (extract_all_metadata oracleTriv wbOv).toOption.getD
    { fileName := "", fileProperties :=
        { createdTime := none, modifiedTime := none, fileSize := 0, author := none,
          lastModifiedBy := none, isPasswordProtected := false },
      worksheets := [] }

/-- A default worksheet-metadata record, `getD` fallback only. -/
def dummySheetMeta : SheetMeta :=
  { sheetName := "", isProtected := false, rowCount := 0, columnCount := 0,
    hasPivotTables := false, hasCharts := false, mergedCells := [], regions := [] }

/-- Witness for C10 on `wbOv`: the first region of the only worksheet of the
returned document carries no `sampleCells`. -/
theorem c10_sample_cells_scrubbed_witness :
    (extract_all_metadata oracleTriv wbOv = .ok mdOv) ∧
    ((mdOv.worksheets.getD 0 dummySheetMeta).regions.getD 0 dummyRegion).sampleCells =
      none :=
  ⟨by decide,
    (c10_sample_cells_scrubbed oracleTriv wbOv mdOv (by decide)).1
      (mdOv.worksheets.getD 0 dummySheetMeta) (by decide)
      ((mdOv.worksheets.getD 0 dummySheetMeta).regions.getD 0 dummyRegion) (by decide)⟩

end ExcelMeta
